import Mathlib

/-!
Shallow embedding of the placement/layout core of the `japanese-3d-text`
repository: bounding-volume computation (`calculateGroupBoundingBox`),
exclusion-zone derivation (`createZoneFromBox`, `createExclusionZone`),
the containment test (`isOutsideExclusionZone`) and rejection-sampling
placement (`createDonuts`).

Numbers: JavaScript numbers are modelled as exact rationals, extended with
the two infinities `+Infinity` / `-Infinity` that `new THREE.Box3()` uses
for the empty box (type `XQ`).  Rounding is not modelled.  Randomness is
modelled as an explicit stream `rnd : ℕ → ℚ` of the successive values
returned by `Math.random()`, consumed left to right exactly as the source
calls it.
-/

/-- A JavaScript number as used by the placement core: an exact rational or
one of the two infinities (`-Infinity`, `+Infinity`).  `NaN` never arises on
the code paths modelled here. -/
inductive XQ where
  | negInf : XQ
  | fin : ℚ → XQ
  | posInf : XQ
deriving DecidableEq, Repr

/-- JavaScript `<` on extended numbers. -/
def XQ.ltb : XQ → XQ → Bool
  | .negInf, .negInf => false
  | .negInf, .fin _ => true
  | .negInf, .posInf => true
  | .fin _, .negInf => false
  | .fin a, .fin b => decide (a < b)
  | .fin _, .posInf => true
  | .posInf, _ => false

/-- JavaScript `<=` on extended numbers (no `NaN`), i.e. the negation of
`>`. -/
def XQ.leb (a b : XQ) : Bool := !(XQ.ltb b a)

/-- Embeds `Math.min` on extended numbers (no `NaN`, no `-0` distinction). -/
def XQ.minx (a b : XQ) : XQ := if XQ.ltb a b then a else b

/-- Embeds `Math.max` on extended numbers (no `NaN`, no `-0` distinction). -/
def XQ.maxx (a b : XQ) : XQ := if XQ.ltb a b then b else a

/-- Subtraction of a finite number from an extended number, as JavaScript
computes `v - margin`: the infinities absorb the finite operand. -/
def XQ.subFin : XQ → ℚ → XQ
  | .negInf, _ => .negInf
  | .fin a, m => .fin (a - m)
  | .posInf, _ => .posInf

/-- Addition of a finite number to an extended number, as JavaScript
computes `v + margin`: the infinities absorb the finite operand. -/
def XQ.addFin : XQ → ℚ → XQ
  | .negInf, _ => .negInf
  | .fin a, m => .fin (a + m)
  | .posInf, _ => .posInf

/-- A finite 3-component vector (`THREE.Vector3` holding finite values). -/
structure QVec3 where
  x : ℚ
  y : ℚ
  z : ℚ
deriving DecidableEq, Repr

/-- A `THREE.Vector3` whose components may be infinite, as used for the
`min` / `max` corners of a `THREE.Box3`. -/
structure XVec3 where
  x : XQ
  y : XQ
  z : XQ
deriving DecidableEq, Repr

/-- A `THREE.Box3`: a pair of extended corner vectors.  `new THREE.Box3()`
is `Box3.empty` below, with `min = +Infinity` and `max = -Infinity` on every
axis. -/
structure Box3 where
  min : XVec3
  max : XVec3
deriving DecidableEq, Repr

/-- Embeds `new THREE.Box3()`: the empty box sentinel. -/
def Box3.empty : Box3 :=
  ⟨⟨.posInf, .posInf, .posInf⟩, ⟨.negInf, .negInf, .negInf⟩⟩

/-- Embeds `Box3.expandByPoint`: lower each `min` component and raise each `max`
component to include the point. -/
def Box3.expandByPoint (b : Box3) (p : QVec3) : Box3 :=
  ⟨⟨XQ.minx b.min.x (.fin p.x), XQ.minx b.min.y (.fin p.y), XQ.minx b.min.z (.fin p.z)⟩,
   ⟨XQ.maxx b.max.x (.fin p.x), XQ.maxx b.max.y (.fin p.y), XQ.maxx b.max.z (.fin p.z)⟩⟩

/-- Embeds `Box3.setFromPoints`: make the box empty, then expand by each point in
order. -/
def Box3.setFromPoints (ps : List QVec3) : Box3 :=
  ps.foldl Box3.expandByPoint Box3.empty

/-- Embeds `Box3.union`: componentwise `min` of the `min` corners and `max` of the
`max` corners (the three.js implementation has no empty-box guard here). -/
def Box3.union (a b : Box3) : Box3 :=
  ⟨⟨XQ.minx a.min.x b.min.x, XQ.minx a.min.y b.min.y, XQ.minx a.min.z b.min.z⟩,
   ⟨XQ.maxx a.max.x b.max.x, XQ.maxx a.max.y b.max.y, XQ.maxx a.max.z b.max.z⟩⟩

/-- Embeds `Box3.containsPoint`: the closed-box membership test of three.js
(`point.x < min.x || point.x > max.x || ... ? false : true`). -/
def Box3.containsPoint (b : Box3) (p : QVec3) : Bool :=
  !(XQ.ltb (.fin p.x) b.min.x || XQ.ltb b.max.x (.fin p.x)
    || XQ.ltb (.fin p.y) b.min.y || XQ.ltb b.max.y (.fin p.y)
    || XQ.ltb (.fin p.z) b.min.z || XQ.ltb b.max.z (.fin p.z))

/-- A geometry-local bounding box with finite corners, as produced by
`BufferGeometry.computeBoundingBox` on a non-degenerate geometry (the torus
and text geometries of this repository). -/
structure QBox where
  lo : QVec3
  hi : QVec3
deriving DecidableEq, Repr

/-- Embeds `Box3.isEmpty` applied to a finite box: some axis has `max < min`. -/
def QBox.isEmpty (b : QBox) : Bool :=
  decide (b.hi.x < b.lo.x) || decide (b.hi.y < b.lo.y) || decide (b.hi.z < b.lo.z)

/-- The eight corner points of a finite box, in the order the three.js
`Box3.applyMatrix4` implementation enumerates them. -/
def QBox.corners (b : QBox) : List QVec3 :=
  [⟨b.lo.x, b.lo.y, b.lo.z⟩, ⟨b.lo.x, b.lo.y, b.hi.z⟩,
   ⟨b.lo.x, b.hi.y, b.lo.z⟩, ⟨b.lo.x, b.hi.y, b.hi.z⟩,
   ⟨b.hi.x, b.lo.y, b.lo.z⟩, ⟨b.hi.x, b.lo.y, b.hi.z⟩,
   ⟨b.hi.x, b.hi.y, b.lo.z⟩, ⟨b.hi.x, b.hi.y, b.hi.z⟩]

/-- Lift a finite box to a `Box3`, as `tempBox.copy(geometry.boundingBox)`
does. -/
def QBox.toBox3 (b : QBox) : Box3 :=
  ⟨⟨.fin b.lo.x, .fin b.lo.y, .fin b.lo.z⟩, ⟨.fin b.hi.x, .fin b.hi.y, .fin b.hi.z⟩⟩

/-- An affine world transform (`Object3D.matrixWorld`): `matrixWorld` is
composed from positions, rotations and scales, so its bottom row is
`(0, 0, 0, 1)` and applying it performs no perspective division. -/
structure Mat4 where
  m11 : ℚ
  m12 : ℚ
  m13 : ℚ
  m14 : ℚ
  m21 : ℚ
  m22 : ℚ
  m23 : ℚ
  m24 : ℚ
  m31 : ℚ
  m32 : ℚ
  m33 : ℚ
  m34 : ℚ
deriving DecidableEq, Repr

/-- Embeds `Vector3.applyMatrix4` for an affine matrix. -/
def Mat4.apply (m : Mat4) (p : QVec3) : QVec3 :=
  ⟨m.m11 * p.x + m.m12 * p.y + m.m13 * p.z + m.m14,
   m.m21 * p.x + m.m22 * p.y + m.m23 * p.z + m.m24,
   m.m31 * p.x + m.m32 * p.y + m.m33 * p.z + m.m34⟩

/-- The identity world transform. -/
def Mat4.id : Mat4 := ⟨1, 0, 0, 0, 0, 1, 0, 0, 0, 0, 1, 0⟩

/-- Embeds `Box3.applyMatrix4` on a finite source box, as executed by
`tempBox.copy(object.geometry.boundingBox).applyMatrix4(object.matrixWorld)`:
an empty box is returned unchanged, otherwise the box is rebuilt from the
eight transformed corners. -/
def QBox.applyMatrix4 (b : QBox) (m : Mat4) : Box3 :=
  if b.isEmpty then b.toBox3
  else Box3.setFromPoints (b.corners.map m.apply)

/-!
The scene graph.  A node (`THREE.Object3D`) carries an optional geometry
bounding box (`some` exactly when the node is a `THREE.Mesh` with a
geometry; the box is the value of `object.geometry.boundingBox` after the
on-demand `computeBoundingBox` call in the source), its world transform,
and a list of children, embedded as the mutual inductive `ObjList` so that
structural recursion mirrors the `children.forEach` traversal.
-/

mutual
/-- A scene-graph node. -/
inductive Object3D where
  | mk : Option QBox → Mat4 → ObjList → Object3D
/-- The ordered list of children of a node. -/
inductive ObjList where
  | nil : ObjList
  | cons : Object3D → ObjList → ObjList
end

/-- The geometry bounding box of a node, when it is a mesh. -/
def Object3D.geom : Object3D → Option QBox
  | .mk g _ _ => g

/-- The world transform of a node. -/
def Object3D.matrixWorld : Object3D → Mat4
  | .mk _ m _ => m

/-- The children of a node. -/
def Object3D.children : Object3D → ObjList
  | .mk _ _ cs => cs

/-- Embeds `children.length`. -/
def ObjList.length : ObjList → Nat
  | .nil => 0
  | .cons _ os => 1 + os.length

/-- A `THREE.Group`: children plus a world transform, never carrying a
geometry of its own. -/
structure Group3D where
  matrixWorld : Mat4
  children : ObjList

mutual
/-- The body of `processObject` in `calculateGroupBoundingBox`: if the node
is a mesh with a geometry, union its world-space box into the accumulator,
then process the children in order. -/
def processObject (acc : Box3) : Object3D → Box3
  | .mk (some g) mw children => processChildren (acc.union (g.applyMatrix4 mw)) children
  | .mk none _ children => processChildren acc children
/-- Embeds `object.children.forEach(processObject)`. -/
def processChildren (acc : Box3) : ObjList → Box3
  | .nil => acc
  | .cons o os => processChildren (processObject acc o) os
end

/-- Embeds `calculateGroupBoundingBox`: returns the empty box at once for a
childless group, otherwise runs the depth-first traversal starting at the
group node itself (which carries no geometry).  The optional matrix
refresh (`forceUpdate` / `updateMatrixWorld`) only synchronises
`matrixWorld` with local transforms; the embedding takes each node field
`matrixWorld` as already current. -/
def calculateGroupBoundingBox (group : Group3D) : Box3 :=
  if group.children.length = 0 then Box3.empty
  else processObject Box3.empty (.mk none group.matrixWorld group.children)

mutual
/-- Specification-side collector: the geometry boxes and world transforms
of all mesh-bearing nodes in a subtree, in traversal order. -/
def meshesOf : Object3D → List (QBox × Mat4)
  | .mk (some g) mw children => (g, mw) :: meshesOfList children
  | .mk none _ children => meshesOfList children
/-- Embeds `meshesOf` over a child list. -/
def meshesOfList : ObjList → List (QBox × Mat4)
  | .nil => []
  | .cons o os => meshesOf o ++ meshesOfList os
end

/-- The mesh-bearing descendants of a group. -/
def Group3D.meshes (g : Group3D) : List (QBox × Mat4) := meshesOfList g.children

/-- The `Zone` / `ExclusionZone` record: six extended scalars.  The two
TypeScript interfaces are structurally identical and used interchangeably
by the source. -/
structure ExclusionZone where
  minX : XQ
  maxX : XQ
  minY : XQ
  maxY : XQ
  minZ : XQ
  maxZ : XQ
deriving DecidableEq, Repr

/-- The `Zone` interface of `geometryUtils` is the same shape. -/
abbrev Zone := ExclusionZone

/-- Embeds `createZoneFromBox`: expand a bounding box outward by `margin` on every
axis. -/
def createZoneFromBox (box : Box3) (margin : ℚ) : Zone :=
  ⟨box.min.x.subFin margin, box.max.x.addFin margin,
   box.min.y.subFin margin, box.max.y.addFin margin,
   box.min.z.subFin margin, box.max.z.addFin margin⟩

/-- Embeds `createExclusionZone`: the bounding box of the group expanded by `margin`
(default 0.3 in the source). -/
def createExclusionZone (group : Group3D) (margin : ℚ) : ExclusionZone :=
  let bounds := calculateGroupBoundingBox group
  ⟨bounds.min.x.subFin margin, bounds.max.x.addFin margin,
   bounds.min.y.subFin margin, bounds.max.y.addFin margin,
   bounds.min.z.subFin margin, bounds.max.z.addFin margin⟩

/-- Embeds `isOutsideExclusionZone`: true when the position is strictly beyond the
zone bounds on at least one axis. -/
def isOutsideExclusionZone (x y z : ℚ) (zone : ExclusionZone) : Bool :=
  XQ.ltb (.fin x) zone.minX || XQ.ltb zone.maxX (.fin x)
    || XQ.ltb (.fin y) zone.minY || XQ.ltb zone.maxY (.fin y)
    || XQ.ltb (.fin z) zone.minZ || XQ.ltb zone.maxZ (.fin z)

/-!
Rejection-sampling placement (`createDonuts`).  The stream `rnd` gives the
successive `Math.random()` results; each call consumes the next index.
`Math.PI` is the π constant of the program, embedded as the exact rational value
of the IEEE-754 double `Math.PI`.
-/

/-- The value of the double constant `Math.PI`
(884279719003555 / 2^48, slightly below the real π). -/
def mathPI : ℚ := 884279719003555 / 281474976710656

/-- One candidate position: three successive `(Math.random() - 0.5) *
spaceSize` draws for x, y, z starting at stream index `k`. -/
def drawPos (rnd : ℕ → ℚ) (spaceSize : ℚ) (k : ℕ) : QVec3 :=
  ⟨(rnd k - 1/2) * spaceSize, (rnd (k+1) - 1/2) * spaceSize,
   (rnd (k+2) - 1/2) * spaceSize⟩

/-- The `while (!isOutsideExclusionZone(x, y, z, zone) && attempts <
maxAttempts)` loop of `createDonuts`.  `fuel` is `maxAttempts - attempts`;
the result is the accepted position, the next unconsumed stream index, and
the number of loop iterations executed (the final `attempts` count). -/
def placeLoop (rnd : ℕ → ℚ) (spaceSize : ℚ) (zone : ExclusionZone) :
    QVec3 → ℕ → ℕ → QVec3 × ℕ × ℕ
  | p, k, 0 => (p, k, 0)
  | p, k, fuel + 1 =>
    if isOutsideExclusionZone p.x p.y p.z zone then (p, k, 0)
    else
      let q := drawPos rnd spaceSize k
      let r := placeLoop rnd spaceSize zone q (k + 3) fuel
      (r.1, r.2.1, r.2.2 + 1)

/-- One placed donut: position, the two rotation components
(`rotation.x`, `rotation.y`) and the uniform scale factor. -/
structure Donut where
  pos : QVec3
  rotX : ℚ
  rotY : ℚ
  scale : ℚ
deriving DecidableEq, Repr

/-- The body of one iteration of the `for` loop in `createDonuts`: draw an
initial position at stream index `k`, run the retry loop with budget
`maxAttempts`, then draw the two rotations and the scale.  Returns the
donut and the next unconsumed stream index. -/
def placeOne (rnd : ℕ → ℚ) (spaceSize : ℚ) (zone : ExclusionZone)
    (k maxAttempts : ℕ) : Donut × ℕ :=
  let p0 := drawPos rnd spaceSize k
  let r := placeLoop rnd spaceSize zone p0 (k + 3) maxAttempts
  (⟨r.1, rnd r.2.1 * mathPI, rnd (r.2.1 + 1) * mathPI, rnd (r.2.1 + 2)⟩,
   r.2.1 + 3)

/-- The `for (let i = 0; i < nbDonuts; i++)` loop, threading the stream
index. -/
def createDonutsAux (rnd : ℕ → ℚ) (spaceSize : ℚ) (zone : ExclusionZone) :
    ℕ → ℕ → List Donut
  | 0, _ => []
  | n + 1, k =>
    let r := placeOne rnd spaceSize zone k 10
    r.1 :: createDonutsAux rnd spaceSize zone n r.2

/-- Embeds `createDonuts`: place `nbDonuts` donuts (a JavaScript number, so a
negative count simply runs the loop zero times), with `maxAttempts = 10`
and default `spaceSize = 10`.  The source adds each donut to the scene;
the embedding returns them in creation order.  The source performs no
argument validation and never throws. -/
def createDonuts (nbDonuts : ℤ) (rnd : ℕ → ℚ) (zone : ExclusionZone)
    (spaceSize : ℚ) : List Donut :=
  createDonutsAux rnd spaceSize zone nbDonuts.toNat 0

/-! Concrete instances used to evaluate the development on closed inputs. -/

/-- A random stream that always returns 1/2. -/
def rndHalf : ℕ → ℚ := fun _ => 1/2

/-- A zone covering all of space: every position tests as inside. -/
def zoneAll : ExclusionZone :=
  ⟨.negInf, .posInf, .negInf, .posInf, .negInf, .posInf⟩

/-- The local unit box. -/
def unitQBox : QBox := ⟨⟨0, 0, 0⟩, ⟨1, 1, 1⟩⟩

/-- A single mesh node carrying the unit box, placed at the origin. -/
def meshObj : Object3D := .mk (some unitQBox) Mat4.id .nil

/-- A group with one mesh child. -/
def sampleGroup : Group3D := ⟨Mat4.id, .cons meshObj .nil⟩

/-- A node that is not a mesh and has no children. -/
def bareObj : Object3D := .mk none Mat4.id .nil

/-- A non-empty group with no mesh-bearing descendant. -/
def meshlessGroup : Group3D := ⟨Mat4.id, .cons bareObj .nil⟩

/-! Order lemmas for the extended numbers. -/

theorem XQ.leb_refl (a : XQ) : XQ.leb a a = true := by
  cases a <;> simp [XQ.leb, XQ.ltb]

theorem XQ.leb_trans {a b c : XQ} (h1 : XQ.leb a b = true)
    (h2 : XQ.leb b c = true) : XQ.leb a c = true := by
  cases a <;> cases b <;> cases c <;> simp_all [XQ.leb, XQ.ltb] <;> linarith

theorem XQ.leb_minx_left (a b : XQ) : XQ.leb (XQ.minx a b) a = true := by
  cases a <;> cases b <;> simp [XQ.minx, XQ.leb, XQ.ltb] <;>
    split_ifs with h <;> simp_all [XQ.ltb, XQ.leb] <;> linarith

theorem XQ.leb_minx_right (a b : XQ) : XQ.leb (XQ.minx a b) b = true := by
  cases a <;> cases b <;> simp [XQ.minx, XQ.leb, XQ.ltb] <;>
    split_ifs with h <;> simp_all [XQ.ltb, XQ.leb] <;> linarith

theorem XQ.leb_maxx_left (a b : XQ) : XQ.leb a (XQ.maxx a b) = true := by
  cases a <;> cases b <;> simp [XQ.maxx, XQ.leb, XQ.ltb] <;>
    split_ifs with h <;> simp_all [XQ.ltb, XQ.leb] <;> linarith

theorem XQ.leb_maxx_right (a b : XQ) : XQ.leb b (XQ.maxx a b) = true := by
  cases a <;> cases b <;> simp [XQ.maxx, XQ.leb, XQ.ltb] <;>
    split_ifs with h <;> simp_all [XQ.ltb, XQ.leb] <;> linarith

theorem XQ.ltb_eq_false_iff (a b : XQ) : XQ.ltb a b = false ↔ XQ.leb b a = true := by
  simp [XQ.leb]

theorem XQ.subFin_zero (a : XQ) : XQ.subFin a 0 = a := by
  cases a <;> simp [XQ.subFin]

theorem XQ.addFin_zero (a : XQ) : XQ.addFin a 0 = a := by
  cases a <;> simp [XQ.addFin]

/-! Containment lemmas for boxes. -/

theorem Box3.containsPoint_iff (b : Box3) (p : QVec3) :
    b.containsPoint p = true ↔
      XQ.leb b.min.x (.fin p.x) = true ∧ XQ.leb (.fin p.x) b.max.x = true ∧
      XQ.leb b.min.y (.fin p.y) = true ∧ XQ.leb (.fin p.y) b.max.y = true ∧
      XQ.leb b.min.z (.fin p.z) = true ∧ XQ.leb (.fin p.z) b.max.z = true := by
  simp only [Box3.containsPoint, XQ.leb, Bool.not_eq_true', Bool.or_eq_false_iff,
    Bool.not_eq_false']
  tauto

theorem Box3.containsPoint_union_left (a b : Box3) (p : QVec3)
    (h : a.containsPoint p = true) : (a.union b).containsPoint p = true := by
  rw [Box3.containsPoint_iff] at h ⊢
  obtain ⟨h1, h2, h3, h4, h5, h6⟩ := h
  exact ⟨XQ.leb_trans (XQ.leb_minx_left _ _) h1,
    XQ.leb_trans h2 (XQ.leb_maxx_left _ _),
    XQ.leb_trans (XQ.leb_minx_left _ _) h3,
    XQ.leb_trans h4 (XQ.leb_maxx_left _ _),
    XQ.leb_trans (XQ.leb_minx_left _ _) h5,
    XQ.leb_trans h6 (XQ.leb_maxx_left _ _)⟩

theorem Box3.containsPoint_union_right (a b : Box3) (p : QVec3)
    (h : b.containsPoint p = true) : (a.union b).containsPoint p = true := by
  rw [Box3.containsPoint_iff] at h ⊢
  obtain ⟨h1, h2, h3, h4, h5, h6⟩ := h
  exact ⟨XQ.leb_trans (XQ.leb_minx_right _ _) h1,
    XQ.leb_trans h2 (XQ.leb_maxx_right _ _),
    XQ.leb_trans (XQ.leb_minx_right _ _) h3,
    XQ.leb_trans h4 (XQ.leb_maxx_right _ _),
    XQ.leb_trans (XQ.leb_minx_right _ _) h5,
    XQ.leb_trans h6 (XQ.leb_maxx_right _ _)⟩

theorem Box3.containsPoint_expandByPoint_self (b : Box3) (p : QVec3) :
    (b.expandByPoint p).containsPoint p = true := by
  rw [Box3.containsPoint_iff]
  exact ⟨XQ.leb_minx_right _ _, XQ.leb_maxx_right _ _,
    XQ.leb_minx_right _ _, XQ.leb_maxx_right _ _,
    XQ.leb_minx_right _ _, XQ.leb_maxx_right _ _⟩

theorem Box3.containsPoint_expandByPoint_mono (b : Box3) (p q : QVec3)
    (h : b.containsPoint q = true) : (b.expandByPoint p).containsPoint q = true := by
  rw [Box3.containsPoint_iff] at h ⊢
  obtain ⟨h1, h2, h3, h4, h5, h6⟩ := h
  exact ⟨XQ.leb_trans (XQ.leb_minx_left _ _) h1,
    XQ.leb_trans h2 (XQ.leb_maxx_left _ _),
    XQ.leb_trans (XQ.leb_minx_left _ _) h3,
    XQ.leb_trans h4 (XQ.leb_maxx_left _ _),
    XQ.leb_trans (XQ.leb_minx_left _ _) h5,
    XQ.leb_trans h6 (XQ.leb_maxx_left _ _)⟩

theorem Box3.containsPoint_foldl_mono (ps : List QVec3) (acc : Box3) (q : QVec3)
    (h : acc.containsPoint q = true) :
    (ps.foldl Box3.expandByPoint acc).containsPoint q = true := by
  induction ps generalizing acc with
  | nil => exact h
  | cons p ps ih =>
    exact ih _ (Box3.containsPoint_expandByPoint_mono _ _ _ h)

theorem Box3.containsPoint_foldl_mem :
    ∀ (ps : List QVec3) (acc : Box3) (q : QVec3), q ∈ ps →
      (ps.foldl Box3.expandByPoint acc).containsPoint q = true
  | [], _, _, h => absurd h (List.not_mem_nil _)
  | p :: ps, acc, q, h => by
    rw [List.foldl_cons]
    rcases List.mem_cons.1 h with rfl | hmem
    · exact Box3.containsPoint_foldl_mono ps _ _
        (Box3.containsPoint_expandByPoint_self _ _)
    · exact Box3.containsPoint_foldl_mem ps _ q hmem

theorem Box3.containsPoint_setFromPoints (ps : List QVec3) (q : QVec3)
    (h : q ∈ ps) : (Box3.setFromPoints ps).containsPoint q = true :=
  Box3.containsPoint_foldl_mem ps Box3.empty q h

theorem QBox.applyMatrix4_containsCorner (b : QBox) (m : Mat4) (p : QVec3)
    (hb : b.isEmpty = false) (hp : p ∈ b.corners) :
    (b.applyMatrix4 m).containsPoint (m.apply p) = true := by
  rw [QBox.applyMatrix4, hb]
  simp only [Bool.false_eq_true, if_false]
  exact Box3.containsPoint_setFromPoints _ _ (List.mem_map_of_mem m.apply hp)

/-! The traversal only ever unions boxes into the accumulator, so it
preserves containment, and it captures the world-space box of every mesh it
visits. -/

mutual
theorem processObject_mono (q : QVec3) :
    ∀ (o : Object3D) (acc : Box3), acc.containsPoint q = true →
      (processObject acc o).containsPoint q = true
  | .mk (some g) mw cs, acc, h => by
    rw [processObject]
    exact processChildren_mono q cs _ (Box3.containsPoint_union_left _ _ _ h)
  | .mk none mw cs, acc, h => by
    rw [processObject]
    exact processChildren_mono q cs _ h
theorem processChildren_mono (q : QVec3) :
    ∀ (cs : ObjList) (acc : Box3), acc.containsPoint q = true →
      (processChildren acc cs).containsPoint q = true
  | .nil, _, h => h
  | .cons o os, acc, h =>
    processChildren_mono q os _ (processObject_mono q o acc h)
end

mutual
theorem processObject_meshes (q : QVec3) (gb : QBox) (mw : Mat4)
    (hq : (gb.applyMatrix4 mw).containsPoint q = true) :
    ∀ (o : Object3D) (acc : Box3), (gb, mw) ∈ meshesOf o →
      (processObject acc o).containsPoint q = true
  | .mk (some g) mw2 cs, acc, hmem => by
    rw [processObject]
    rw [meshesOf] at hmem
    rcases List.mem_cons.1 hmem with hhead | htail
    · rw [Prod.mk.injEq] at hhead
      obtain ⟨rfl, rfl⟩ := hhead
      exact processChildren_mono q cs _
        (Box3.containsPoint_union_right _ _ _ hq)
    · exact processChildren_meshes q gb mw hq cs _ htail
  | .mk none mw2 cs, acc, hmem => by
    rw [processObject]
    rw [meshesOf] at hmem
    exact processChildren_meshes q gb mw hq cs _ hmem
theorem processChildren_meshes (q : QVec3) (gb : QBox) (mw : Mat4)
    (hq : (gb.applyMatrix4 mw).containsPoint q = true) :
    ∀ (cs : ObjList) (acc : Box3), (gb, mw) ∈ meshesOfList cs →
      (processChildren acc cs).containsPoint q = true
  | .nil, _, hmem => absurd hmem (by simp [meshesOfList])
  | .cons o os, acc, hmem => by
    rw [processChildren]
    rw [meshesOfList] at hmem
    rcases List.mem_append.1 hmem with hhere | hthere
    · exact processChildren_mono q os _ (processObject_meshes q gb mw hq o acc hhere)
    · exact processChildren_meshes q gb mw hq os _ hthere
end

mutual
theorem processObject_no_meshes :
    ∀ (o : Object3D) (acc : Box3), meshesOf o = [] → processObject acc o = acc
  | .mk (some g) mw cs, acc, h => by
    rw [meshesOf] at h
    exact absurd h (List.cons_ne_nil _ _)
  | .mk none mw cs, acc, h => by
    rw [meshesOf] at h
    rw [processObject]
    exact processChildren_no_meshes cs acc h
theorem processChildren_no_meshes :
    ∀ (cs : ObjList) (acc : Box3), meshesOfList cs = [] → processChildren acc cs = acc
  | .nil, _, _ => rfl
  | .cons o os, acc, h => by
    rw [meshesOfList] at h
    rw [List.append_eq_nil] at h
    rw [processChildren, processObject_no_meshes o acc h.1,
      processChildren_no_meshes os acc h.2]
end

/-- The box returned by `calculateGroupBoundingBox` contains every
world-transformed corner of every proper mesh bounding box in the group. -/
theorem calculateGroupBoundingBox_contains (g : Group3D) (gb : QBox) (mw : Mat4)
    (hmem : (gb, mw) ∈ g.meshes) (hb : gb.isEmpty = false)
    (p : QVec3) (hp : p ∈ gb.corners) :
    (calculateGroupBoundingBox g).containsPoint (mw.apply p) = true := by
  have hne : ¬ g.children.length = 0 := by
    cases hcs : g.children with
    | nil =>
      rw [Group3D.meshes, hcs, meshesOfList] at hmem
      exact absurd hmem (List.not_mem_nil _)
    | cons o os => simp [ObjList.length]
  rw [calculateGroupBoundingBox, if_neg hne]
  apply processObject_meshes _ gb mw
    (QBox.applyMatrix4_containsCorner gb mw p hb hp)
  rw [meshesOf]
  exact hmem

/-- A group with no mesh-bearing descendants yields the empty sentinel
box. -/
theorem calculateGroupBoundingBox_of_no_meshes (g : Group3D)
    (h : g.meshes = []) : calculateGroupBoundingBox g = Box3.empty := by
  rw [calculateGroupBoundingBox]
  split
  · rfl
  · apply processObject_no_meshes
    rw [meshesOf]
    exact h

/-! Lemmas about the rejection-sampling loop. -/

/-- The `for` loop produces exactly one donut per iteration. -/
theorem createDonutsAux_length (rnd : ℕ → ℚ) (s : ℚ) (zone : ExclusionZone) :
    ∀ (n k : ℕ), (createDonutsAux rnd s zone n k).length = n
  | 0, _ => rfl
  | n + 1, k => by
    rw [createDonutsAux, List.length_cons, createDonutsAux_length rnd s zone n]

/-- Iteration count never exceeds the budget, and each iteration consumes
exactly three stream values. -/
theorem placeLoop_iterations (rnd : ℕ → ℚ) (s : ℚ) (zone : ExclusionZone) :
    ∀ (fuel : ℕ) (p : QVec3) (k : ℕ),
      (placeLoop rnd s zone p k fuel).2.2 ≤ fuel ∧
      (placeLoop rnd s zone p k fuel).2.1 = k + 3 * (placeLoop rnd s zone p k fuel).2.2
  | 0, p, k => by simp [placeLoop]
  | fuel + 1, p, k => by
    rw [placeLoop]
    split
    · simp
    · have ih := placeLoop_iterations rnd s zone fuel (drawPos rnd s k) (k + 3)
      refine ⟨?_, ?_⟩
      · show (placeLoop rnd s zone (drawPos rnd s k) (k + 3) fuel).2.2 + 1 ≤ fuel + 1
        omega
      · show (placeLoop rnd s zone (drawPos rnd s k) (k + 3) fuel).2.1 =
          k + 3 * ((placeLoop rnd s zone (drawPos rnd s k) (k + 3) fuel).2.2 + 1)
        omega

/-- The accepted position is either the initial candidate or one of the
redraws. -/
theorem placeLoop_pos_shape (rnd : ℕ → ℚ) (s : ℚ) (zone : ExclusionZone) :
    ∀ (fuel : ℕ) (p : QVec3) (k : ℕ),
      (placeLoop rnd s zone p k fuel).1 = p ∨
      ∃ j, (placeLoop rnd s zone p k fuel).1 = drawPos rnd s j
  | 0, p, k => Or.inl rfl
  | fuel + 1, p, k => by
    rw [placeLoop]
    split
    · exact Or.inl rfl
    · rcases placeLoop_pos_shape rnd s zone fuel (drawPos rnd s k) (k + 3) with h | ⟨j, h⟩
      · exact Or.inr ⟨k, h⟩
      · exact Or.inr ⟨j, h⟩

/-- When every candidate tests as inside the zone, the loop consumes its
whole budget and returns the final redraw. -/
theorem placeLoop_all_inside (rnd : ℕ → ℚ) (s : ℚ) (zone : ExclusionZone)
    (hin : ∀ x y z : ℚ, isOutsideExclusionZone x y z zone = false) :
    ∀ (fuel : ℕ) (p : QVec3) (k : ℕ),
      placeLoop rnd s zone p k (fuel + 1) =
        (drawPos rnd s (k + 3 * fuel), k + 3 * fuel + 3, fuel + 1)
  | 0, p, k => by
    rw [placeLoop, hin]
    simp [placeLoop]
  | fuel + 1, p, k => by
    rw [placeLoop, hin]
    simp only [Bool.false_eq_true, if_false]
    rw [placeLoop_all_inside rnd s zone hin fuel (drawPos rnd s k) (k + 3)]
    refine Prod.ext ?_ (Prod.ext ?_ rfl)
    · show drawPos rnd s (k + 3 + 3 * fuel) = drawPos rnd s (k + 3 * (fuel + 1))
      congr 1
      omega
    · show k + 3 + 3 * fuel + 3 = k + 3 * (fuel + 1) + 3
      omega

/-- Every donut in the output list is produced by `placeOne` at some stream
index. -/
theorem mem_createDonutsAux (rnd : ℕ → ℚ) (s : ℚ) (zone : ExclusionZone) :
    ∀ (n k : ℕ) (d : Donut), d ∈ createDonutsAux rnd s zone n k →
      ∃ j, d = (placeOne rnd s zone j 10).1
  | 0, _, _, h => absurd h (List.not_mem_nil _)
  | n + 1, k, d, h => by
    rw [createDonutsAux] at h
    rcases List.mem_cons.1 h with rfl | hmem
    · exact ⟨k, rfl⟩
    · exact mem_createDonutsAux rnd s zone n _ d hmem

/-- Bounds on a single candidate coordinate. -/
theorem drawPos_bounds (rnd : ℕ → ℚ) (hr : ∀ i, 0 ≤ rnd i ∧ rnd i < 1)
    (s : ℚ) (hs : 0 < s) (j : ℕ) :
    (-(s/2) ≤ (drawPos rnd s j).x ∧ (drawPos rnd s j).x ≤ s/2) ∧
    (-(s/2) ≤ (drawPos rnd s j).y ∧ (drawPos rnd s j).y ≤ s/2) ∧
    (-(s/2) ≤ (drawPos rnd s j).z ∧ (drawPos rnd s j).z ≤ s/2) := by
  have hx := hr j
  have hy := hr (j + 1)
  have hz := hr (j + 2)
  refine ⟨⟨?_, ?_⟩, ⟨?_, ?_⟩, ⟨?_, ?_⟩⟩ <;> simp only [drawPos] <;> nlinarith

/-!
Claim theorems.
-/

/-- C1: for every exclusion zone and candidate position,
`isOutsideExclusionZone` returns `false` exactly when the position lies
within the zone interval on all three axes simultaneously (closed
intervals); equivalently it returns `true` exactly when the position is
strictly beyond the bounds on at least one axis. -/
theorem C1_containment_iff (zone : ExclusionZone) (x y z : ℚ) :
    isOutsideExclusionZone x y z zone = false ↔
      (XQ.leb zone.minX (.fin x) = true ∧ XQ.leb (.fin x) zone.maxX = true ∧
       XQ.leb zone.minY (.fin y) = true ∧ XQ.leb (.fin y) zone.maxY = true ∧
       XQ.leb zone.minZ (.fin z) = true ∧ XQ.leb (.fin z) zone.maxZ = true) := by
  simp only [isOutsideExclusionZone, XQ.leb, Bool.or_eq_false_iff,
    Bool.not_eq_true', Bool.not_eq_false']
  tauto

/-- C3: every world-transformed corner of every proper (non-inverted)
descendant mesh bounding box lies inside the box returned by
`calculateGroupBoundingBox`. -/
theorem C3_boundingBox_contains_extrema (g : Group3D) (gb : QBox) (mw : Mat4)
    (hmem : (gb, mw) ∈ g.meshes) (hb : gb.isEmpty = false)
    (p : QVec3) (hp : p ∈ gb.corners) :
    (calculateGroupBoundingBox g).containsPoint (mw.apply p) = true :=
  calculateGroupBoundingBox_contains g gb mw hmem hb p hp

/-- Witness for C3 on a concrete one-mesh group. -/
theorem C3_witness :
    ((unitQBox, Mat4.id) ∈ sampleGroup.meshes ∧ unitQBox.isEmpty = false ∧
      (⟨0, 0, 0⟩ : QVec3) ∈ unitQBox.corners) ∧
    (calculateGroupBoundingBox sampleGroup).containsPoint
      (Mat4.id.apply ⟨0, 0, 0⟩) = true :=
  ⟨by decide, C3_boundingBox_contains_extrema sampleGroup unitQBox Mat4.id
    (by decide) (by decide) ⟨0, 0, 0⟩ (by decide)⟩

/-- C5: a group with no mesh-bearing descendants yields, without error, the
explicitly empty sentinel box, whose min strictly exceeds its max on every
axis. -/
theorem C5_empty_group (g : Group3D) (h : g.meshes = []) :
    calculateGroupBoundingBox g = Box3.empty ∧
    XQ.ltb (calculateGroupBoundingBox g).max.x (calculateGroupBoundingBox g).min.x = true ∧
    XQ.ltb (calculateGroupBoundingBox g).max.y (calculateGroupBoundingBox g).min.y = true ∧
    XQ.ltb (calculateGroupBoundingBox g).max.z (calculateGroupBoundingBox g).min.z = true := by
  have he := calculateGroupBoundingBox_of_no_meshes g h
  rw [he]
  exact ⟨rfl, rfl, rfl, rfl⟩

/-- Witness for C5 on a concrete meshless group. -/
theorem C5_witness :
    meshlessGroup.meshes = [] ∧
    calculateGroupBoundingBox meshlessGroup = Box3.empty :=
  ⟨by decide, (C5_empty_group meshlessGroup (by decide)).1⟩

/-- C7 counterexample: on the empty sentinel box (a `THREE.Box3` value) a
positive margin leaves the infinite bounds unchanged, so the expanded zone
does not strictly contain the box: its min is not strictly below the box
min and its max is not strictly above the box max. -/
theorem C7_counterexample :
    createZoneFromBox Box3.empty 1 =
      ⟨.posInf, .negInf, .posInf, .negInf, .posInf, .negInf⟩ ∧
    XQ.ltb (createZoneFromBox Box3.empty 1).minX Box3.empty.min.x = false ∧
    XQ.ltb Box3.empty.max.x (createZoneFromBox Box3.empty 1).maxX = false := by
  decide

/-- C7 (amended): zero margin is a no-op for every box — the zone carries
exactly the same min and max on every axis — and for every box with finite
bounds and every margin m > 0 the expanded zone strictly contains the box:
min strictly decreased and max strictly increased on every axis. -/
theorem C7_expand (b : Box3) (qb : QBox) (m : ℚ) (hm : 0 < m) :
    createZoneFromBox b 0 =
      ⟨b.min.x, b.max.x, b.min.y, b.max.y, b.min.z, b.max.z⟩ ∧
    (XQ.ltb (createZoneFromBox qb.toBox3 m).minX qb.toBox3.min.x = true ∧
     XQ.ltb qb.toBox3.max.x (createZoneFromBox qb.toBox3 m).maxX = true ∧
     XQ.ltb (createZoneFromBox qb.toBox3 m).minY qb.toBox3.min.y = true ∧
     XQ.ltb qb.toBox3.max.y (createZoneFromBox qb.toBox3 m).maxY = true ∧
     XQ.ltb (createZoneFromBox qb.toBox3 m).minZ qb.toBox3.min.z = true ∧
     XQ.ltb qb.toBox3.max.z (createZoneFromBox qb.toBox3 m).maxZ = true) := by
  constructor
  · simp [createZoneFromBox, XQ.subFin_zero, XQ.addFin_zero]
  · refine ⟨?_, ?_, ?_, ?_, ?_, ?_⟩ <;>
      simp [createZoneFromBox, QBox.toBox3, XQ.subFin, XQ.addFin, XQ.ltb] <;>
      linarith

/-- Witness for C7 on the unit box with margin 1. -/
theorem C7_witness :
    (0 : ℚ) < 1 ∧
    createZoneFromBox Box3.empty 0 =
      ⟨Box3.empty.min.x, Box3.empty.max.x, Box3.empty.min.y,
       Box3.empty.max.y, Box3.empty.min.z, Box3.empty.max.z⟩ ∧
    XQ.ltb (createZoneFromBox unitQBox.toBox3 1).minX unitQBox.toBox3.min.x = true :=
  ⟨by norm_num, (C7_expand Box3.empty unitQBox 1 (by norm_num)).1,
   (C7_expand Box3.empty unitQBox 1 (by norm_num)).2.1⟩

/-- C8: round trip — the zone built with `createZoneFromBox` at margin 0
from the box of `calculateGroupBoundingBox` classifies every
world-transformed corner of every proper descendant mesh box as inside
(`isOutsideExclusionZone` returns `false`), boundary points included. -/
theorem C8_roundTrip (g : Group3D) (gb : QBox) (mw : Mat4)
    (hmem : (gb, mw) ∈ g.meshes) (hb : gb.isEmpty = false)
    (p : QVec3) (hp : p ∈ gb.corners) :
    isOutsideExclusionZone (mw.apply p).x (mw.apply p).y (mw.apply p).z
      (createZoneFromBox (calculateGroupBoundingBox g) 0) = false := by
  have hc := calculateGroupBoundingBox_contains g gb mw hmem hb p hp
  rw [Box3.containsPoint_iff] at hc
  obtain ⟨h1, h2, h3, h4, h5, h6⟩ := hc
  simp only [isOutsideExclusionZone, createZoneFromBox, XQ.subFin_zero,
    XQ.addFin_zero, Bool.or_eq_false_iff]
  exact ⟨⟨⟨⟨⟨(XQ.ltb_eq_false_iff _ _).2 h1, (XQ.ltb_eq_false_iff _ _).2 h2⟩,
    (XQ.ltb_eq_false_iff _ _).2 h3⟩, (XQ.ltb_eq_false_iff _ _).2 h4⟩,
    (XQ.ltb_eq_false_iff _ _).2 h5⟩, (XQ.ltb_eq_false_iff _ _).2 h6⟩

/-- Witness for C8 on a concrete one-mesh group, at a boundary corner. -/
theorem C8_witness :
    ((unitQBox, Mat4.id) ∈ sampleGroup.meshes ∧ unitQBox.isEmpty = false ∧
      (⟨1, 1, 1⟩ : QVec3) ∈ unitQBox.corners) ∧
    isOutsideExclusionZone (Mat4.id.apply ⟨1, 1, 1⟩).x
      (Mat4.id.apply ⟨1, 1, 1⟩).y (Mat4.id.apply ⟨1, 1, 1⟩).z
      (createZoneFromBox (calculateGroupBoundingBox sampleGroup) 0) = false :=
  ⟨by decide, C8_roundTrip sampleGroup unitQBox Mat4.id (by decide) (by decide)
    ⟨1, 1, 1⟩ (by decide)⟩

/-- C2: the retry budget is exactly 10; when every candidate tests as
inside the zone the loop exhausts the budget (10 iterations) and the donut
keeps the last-drawn candidate (the draw starting at stream index k + 30,
after the initial draw at k and ten redraws); no exception is possible
(`createDonuts` is a total function) and the output has exactly one donut
per requested object. -/
theorem C2_exhaustion_policy (rnd : ℕ → ℚ) (s : ℚ) (zone : ExclusionZone)
    (hin : ∀ x y z : ℚ, isOutsideExclusionZone x y z zone = false) :
    (∀ n : ℤ, (createDonuts n rnd zone s).length = n.toNat) ∧
    (∀ k : ℕ, placeLoop rnd s zone (drawPos rnd s k) (k + 3) 10 =
      (drawPos rnd s (k + 30), k + 33, 10)) ∧
    (∀ k : ℕ, (placeOne rnd s zone k 10).1.pos = drawPos rnd s (k + 30)) := by
  have hl : ∀ k : ℕ, placeLoop rnd s zone (drawPos rnd s k) (k + 3) 10 =
      (drawPos rnd s (k + 30), k + 33, 10) := by
    intro k
    have h := placeLoop_all_inside rnd s zone hin 9 (drawPos rnd s k) (k + 3)
    have h1 : k + 3 + 3 * 9 = k + 30 := by omega
    have h2 : k + 3 + 3 * 9 + 3 = k + 33 := by omega
    rw [h, h1, h2]
  refine ⟨?_, hl, ?_⟩
  · intro n
    rw [createDonuts]
    exact createDonutsAux_length rnd s zone n.toNat 0
  · intro k
    show (placeLoop rnd s zone (drawPos rnd s k) (k + 3) 10).1 = drawPos rnd s (k + 30)
    rw [hl k]

/-- Witness for C2 with the all-covering zone (the full-volume scenario of
the specification). -/
theorem C2_witness :
    (∀ x y z : ℚ, isOutsideExclusionZone x y z zoneAll = false) ∧
    (createDonuts 2 rndHalf zoneAll 10).length = (2 : ℤ).toNat ∧
    (placeOne rndHalf 10 zoneAll 0 10).1.pos = drawPos rndHalf 10 30 :=
  ⟨fun _ _ _ => rfl,
   (C2_exhaustion_policy rndHalf 10 zoneAll (fun _ _ _ => rfl)).1 2,
   (C2_exhaustion_policy rndHalf 10 zoneAll (fun _ _ _ => rfl)).2.2 0⟩

/-- C4 counterexample: the source performs no argument validation and never
throws, so with the invalid count -1 the generation silently returns an
empty output, and with the invalid extent 0 it still silently produces a
placed donut — contradicting the claim that such calls fail fast with an
error. -/
theorem C4_counterexample :
    createDonuts (-1) rndHalf zoneAll 10 = [] ∧
    (createDonuts 1 rndHalf zoneAll 0).length = 1 := by
  exact ⟨by decide, by decide⟩

/-- C4 (amended): `createDonuts` performs no validation: a negative count
silently yields an empty list, a zero sampling extent silently yields
donuts placed at the origin, and no input is rejected (the embedded
functions are total, mirroring the absence of any throw in the source). -/
theorem C4_no_validation (rnd : ℕ → ℚ) (zone : ExclusionZone) (s : ℚ) :
    (∀ n : ℤ, n < 0 → createDonuts n rnd zone s = []) ∧
    (∀ (n : ℤ) (d : Donut), d ∈ createDonuts n rnd zone 0 →
      d.pos = ⟨0, 0, 0⟩) := by
  constructor
  · intro n hn
    rw [createDonuts, Int.toNat_of_nonpos (le_of_lt hn)]
    rfl
  · intro n d hd
    rw [createDonuts] at hd
    obtain ⟨j, rfl⟩ := mem_createDonutsAux rnd 0 zone n.toNat 0 d hd
    have hdraw : ∀ i, drawPos rnd 0 i = ⟨0, 0, 0⟩ := by
      intro i
      simp [drawPos]
    show (placeLoop rnd 0 zone (drawPos rnd 0 j) (j + 3) 10).1 = ⟨0, 0, 0⟩
    rcases placeLoop_pos_shape rnd 0 zone 10 (drawPos rnd 0 j) (j + 3)
      with h | ⟨i, h⟩
    · rw [h, hdraw]
    · rw [h, hdraw]

/-- Witness for C4 (amended) at concrete invalid inputs. -/
theorem C4_witness :
    ((-1 : ℤ) < 0 ∧ createDonuts (-1) rndHalf zoneAll 10 = []) ∧
    ((placeOne rndHalf 0 zoneAll 0 10).1 ∈ createDonuts 1 rndHalf zoneAll 0 ∧
      (placeOne rndHalf 0 zoneAll 0 10).1.pos = ⟨0, 0, 0⟩) :=
  ⟨⟨by decide, (C4_no_validation rndHalf zoneAll 10).1 (-1) (by decide)⟩,
   ⟨List.mem_cons_self _ _,
    (C4_no_validation rndHalf zoneAll 10).2 1 _ (List.mem_cons_self _ _)⟩⟩

/-- C6: every donut produced by `createDonuts` with sampling size s > 0 and
a random stream ranged in [0, 1) has each position coordinate in
[-s/2, s/2], both rotation components in [0, π) — π being the `Math.PI`
constant of the program — and its uniform scale factor in [0, 1].
(Uniformity and independence of the draws are properties of the abstract
`Math.random` stream, not of this code.) -/
theorem C6_output_ranges (rnd : ℕ → ℚ) (hr : ∀ i, 0 ≤ rnd i ∧ rnd i < 1)
    (s : ℚ) (hs : 0 < s) (n : ℤ) (zone : ExclusionZone) (d : Donut)
    (hd : d ∈ createDonuts n rnd zone s) :
    (-(s/2) ≤ d.pos.x ∧ d.pos.x ≤ s/2) ∧
    (-(s/2) ≤ d.pos.y ∧ d.pos.y ≤ s/2) ∧
    (-(s/2) ≤ d.pos.z ∧ d.pos.z ≤ s/2) ∧
    (0 ≤ d.rotX ∧ d.rotX < mathPI) ∧
    (0 ≤ d.rotY ∧ d.rotY < mathPI) ∧
    (0 ≤ d.scale ∧ d.scale ≤ 1) := by
  have hpi : (0 : ℚ) < mathPI := by norm_num [mathPI]
  rw [createDonuts] at hd
  obtain ⟨j, rfl⟩ := mem_createDonutsAux rnd s zone n.toNat 0 d hd
  have hshape : ∃ i, (placeLoop rnd s zone (drawPos rnd s j) (j + 3) 10).1 =
      drawPos rnd s i := by
    rcases placeLoop_pos_shape rnd s zone 10 (drawPos rnd s j) (j + 3)
      with h | ⟨i, h⟩
    · exact ⟨j, h⟩
    · exact ⟨i, h⟩
  obtain ⟨i, hi⟩ := hshape
  have hb := drawPos_bounds rnd hr s hs i
  have hpos : (placeOne rnd s zone j 10).1.pos =
      (placeLoop rnd s zone (drawPos rnd s j) (j + 3) 10).1 := rfl
  have hu1 := hr (placeLoop rnd s zone (drawPos rnd s j) (j + 3) 10).2.1
  have hu2 := hr ((placeLoop rnd s zone (drawPos rnd s j) (j + 3) 10).2.1 + 1)
  have hu3 := hr ((placeLoop rnd s zone (drawPos rnd s j) (j + 3) 10).2.1 + 2)
  refine ⟨?_, ?_, ?_, ?_, ?_, ?_⟩
  · rw [hpos, hi]; exact hb.1
  · rw [hpos, hi]; exact hb.2.1
  · rw [hpos, hi]; exact hb.2.2
  · exact ⟨mul_nonneg hu1.1 (le_of_lt hpi), mul_lt_of_lt_one_left hpi hu1.2⟩
  · exact ⟨mul_nonneg hu2.1 (le_of_lt hpi), mul_lt_of_lt_one_left hpi hu2.2⟩
  · exact ⟨hu3.1, le_of_lt hu3.2⟩

/-- Witness for C6 at a concrete stream, extent and donut. -/
theorem C6_witness :
    ((∀ i, 0 ≤ rndHalf i ∧ rndHalf i < 1) ∧ (0 : ℚ) < 10 ∧
      (placeOne rndHalf 10 zoneAll 0 10).1 ∈ createDonuts 1 rndHalf zoneAll 10) ∧
    ((-(10/2 : ℚ) ≤ (placeOne rndHalf 10 zoneAll 0 10).1.pos.x ∧
       (placeOne rndHalf 10 zoneAll 0 10).1.pos.x ≤ 10/2) ∧
     (-(10/2 : ℚ) ≤ (placeOne rndHalf 10 zoneAll 0 10).1.pos.y ∧
       (placeOne rndHalf 10 zoneAll 0 10).1.pos.y ≤ 10/2) ∧
     (-(10/2 : ℚ) ≤ (placeOne rndHalf 10 zoneAll 0 10).1.pos.z ∧
       (placeOne rndHalf 10 zoneAll 0 10).1.pos.z ≤ 10/2) ∧
     (0 ≤ (placeOne rndHalf 10 zoneAll 0 10).1.rotX ∧
       (placeOne rndHalf 10 zoneAll 0 10).1.rotX < mathPI) ∧
     (0 ≤ (placeOne rndHalf 10 zoneAll 0 10).1.rotY ∧
       (placeOne rndHalf 10 zoneAll 0 10).1.rotY < mathPI) ∧
     (0 ≤ (placeOne rndHalf 10 zoneAll 0 10).1.scale ∧
       (placeOne rndHalf 10 zoneAll 0 10).1.scale ≤ 1)) :=
  ⟨⟨fun _ => by norm_num [rndHalf], by norm_num, List.mem_cons_self _ _⟩,
   C6_output_ranges rndHalf (fun _ => by norm_num [rndHalf]) 10 (by norm_num)
     1 zoneAll (placeOne rndHalf 10 zoneAll 0 10).1 (List.mem_cons_self _ _)⟩

/-- C9: the generation always terminates with bounded work: the resampling
loop runs at most `fuel` (= the retry budget) iterations per object,
consuming exactly three stream values per iteration, and n requested
objects yield exactly n donuts — all deterministic functions of the inputs
and the stream. -/
theorem C9_bounded_work (rnd : ℕ → ℚ) (s : ℚ) (zone : ExclusionZone) :
    (∀ (fuel : ℕ) (p : QVec3) (k : ℕ),
      (placeLoop rnd s zone p k fuel).2.2 ≤ fuel ∧
      (placeLoop rnd s zone p k fuel).2.1 =
        k + 3 * (placeLoop rnd s zone p k fuel).2.2) ∧
    (∀ n : ℤ, (createDonuts n rnd zone s).length = n.toNat) := by
  refine ⟨placeLoop_iterations rnd s zone, ?_⟩
  intro n
  rw [createDonuts]
  exact createDonutsAux_length rnd s zone n.toNat 0

/-- C10: with no mesh-bearing descendants, the exclusion zone keeps the
infinite sentinel bounds (margin arithmetic leaves the infinities
unchanged: min = +Infinity, max = -Infinity on every axis), every finite
position tests as outside, and every donut candidate is accepted on the
first draw with zero loop iterations. -/
theorem C10_empty_propagation (g : Group3D) (m : ℚ) (h : g.meshes = []) :
    createExclusionZone g m =
      ⟨.posInf, .negInf, .posInf, .negInf, .posInf, .negInf⟩ ∧
    (∀ x y z : ℚ,
      isOutsideExclusionZone x y z (createExclusionZone g m) = true) ∧
    (∀ (rnd : ℕ → ℚ) (s : ℚ) (p : QVec3) (k fuel : ℕ),
      placeLoop rnd s (createExclusionZone g m) p k fuel = (p, k, 0)) ∧
    (∀ (rnd : ℕ → ℚ) (s : ℚ) (k ma : ℕ),
      (placeOne rnd s (createExclusionZone g m) k ma).1.pos = drawPos rnd s k) := by
  have hz : createExclusionZone g m =
      ⟨.posInf, .negInf, .posInf, .negInf, .posInf, .negInf⟩ := by
    simp only [createExclusionZone, calculateGroupBoundingBox_of_no_meshes g h]
    rfl
  have hloop : ∀ (rnd : ℕ → ℚ) (s : ℚ) (p : QVec3) (k fuel : ℕ),
      placeLoop rnd s (createExclusionZone g m) p k fuel = (p, k, 0) := by
    intro rnd s p k fuel
    rw [hz]
    cases fuel with
    | zero => rfl
    | succ f => rfl
  refine ⟨hz, ?_, hloop, ?_⟩
  · intro x y z
    rw [hz]
    rfl
  · intro rnd s k ma
    show (placeLoop rnd s (createExclusionZone g m) (drawPos rnd s k)
      (k + 3) ma).1 = drawPos rnd s k
    rw [hloop rnd s (drawPos rnd s k) (k + 3) ma]

/-- Witness for C10 on a concrete meshless group with the default margin
0.3. -/
theorem C10_witness :
    meshlessGroup.meshes = [] ∧
    createExclusionZone meshlessGroup (3/10) =
      ⟨.posInf, .negInf, .posInf, .negInf, .posInf, .negInf⟩ ∧
    isOutsideExclusionZone 0 0 0 (createExclusionZone meshlessGroup (3/10)) = true :=
  ⟨by decide, (C10_empty_propagation meshlessGroup (3/10) (by decide)).1,
   (C10_empty_propagation meshlessGroup (3/10) (by decide)).2.1 0 0 0⟩
